import Mathlib

/-!
Verification of the vschess frontend game-session core.

The repository's core is a React client for chess against a remote engine
("the authority").  The session state machine lives in the `ChessGame`
component; board rendering lives in `ChessBoard`.  The chess rules engine
(chess.js) is an external collaborator, so it is modelled abstractly as an
`Engine` record of the three queries the session code uses
(`chess.move`, `chess.get`, `chess.moves`).  The chess.js instance state is
its stack of applied verbose moves; `chess.undo()` pops the last one,
`chess.history()` maps the stack to SAN strings, and `chess.turn()` is
determined by the parity of the stack length (play always starts from the
standard initial position, where white moves first).
-/

namespace VsChess

/-- A piece color, `"w"` or `"b"` in the source. -/
inductive Color where
  | w
  | b
  deriving DecidableEq, Repr

/-- The result of `chess.get(square)`: a piece type tag and a color. -/
structure Piece where
  ptype : Char
  color : Color
  deriving DecidableEq, Repr

/-- A chess.js verbose `Move` record, restricted to the fields the session
code reads: `from`, `to`, `promotion`, and the SAN string produced by
`chess.history()`. -/
structure MoveRec where
  mfrom : String
  mto : String
  promotion : Option Char
  san : String
  deriving DecidableEq, Repr

/-- The argument object passed to `chess.move({from, to, promotion})`. -/
structure MoveInput where
  mfrom : String
  mto : String
  promotion : Option Char
  deriving DecidableEq, Repr

/-- The external rules engine (chess.js), abstracted as the three queries the
session component uses, each a function of the current move stack:
`tryMove` is `chess.move` (returning `none` on an illegal move and the
produced verbose record otherwise), `getPiece` is `chess.get`, and
`legalMoves` is `chess.moves({square, verbose:true})`. -/
structure Engine where
  tryMove : List MoveRec → MoveInput → Option MoveRec
  getPiece : List MoveRec → String → Option Piece
  legalMoves : List MoveRec → String → List MoveRec

/-- The props of the `ChessGame` component after URL normalization. -/
structure Config where
  normalizedApiUrl : String
  gameId : String
  playerColor : Color
  initialEngineMove : Option String

/-- The authority's response payload (`GameResponse`): an optional engine
move token and a status string (defended with `?? "in_progress"`). -/
structure GameResponse where
  move : Option String
  status : Option String

/-- The session state owned by `ChessGame`: the chess.js move stack plus the
React state cells (`gameStatus`, `error`, `isSubmittingMove`,
`selectedSquare`, `availableTargets`, `lastMove`, `history`). -/
structure SessionState where
  stack : List MoveRec
  gameStatus : String
  error : Option String
  isSubmittingMove : Bool
  selectedSquare : Option String
  availableTargets : List String
  lastMove : Option (String × String)
  history : List String
  deriving DecidableEq, Repr

/-- The model of `chess.turn()`: white to move iff an even number of moves has been
played from the initial position. -/
def turnOf (stack : List MoveRec) : Color :=
  if stack.length % 2 = 0 then Color.w else Color.b

/-- The `syncBoardState` callback: recompute `lastMove` from the last verbose move and
`history` from the SAN history. -/
def syncBoardState (s : SessionState) : SessionState :=
  { s with
    lastMove :=
      match s.stack.getLast? with
      | none => none
      | some m => some (m.mfrom, m.mto)
    history := s.stack.map (fun m => m.san) }

/-- The `createMoveToken` encoder: origin + destination + optional promotion letter. -/
def createMoveToken (m : MoveRec) : String :=
  m.mfrom ++ m.mto ++ (match m.promotion with
    | some c => String.mk [c]
    | none => "")

/-- The decoding half of `applyEngineMove`: `from = tok.slice(0,2)`,
`to = tok.slice(2,4)`, `promotion = tok[4]` when the token has length 5. -/
def decodeToken (tok : String) : MoveInput :=
  { mfrom := String.mk (tok.toList.take 2)
    mto := String.mk ((tok.toList.drop 2).take 2)
    promotion :=
      if tok.toList.length = 5 then (tok.toList.drop 4).head? else none }

/-- The error message set when an authority-supplied move cannot be applied
by the rules engine (the desync condition). -/
def engineMoveFailureMsg : String :=
  "Failed to apply engine move. Please refresh the page."

/-- The `applyEngineMove` callback: decode the token, apply it via the rules engine; on
failure set the desync error, on success push the move and resync. -/
def applyEngineMove (E : Engine) (tok : String) (s : SessionState) :
    SessionState :=
  match E.tryMove s.stack (decodeToken tok) with
  | none => { s with error := some engineMoveFailureMsg }
  | some mv => syncBoardState { s with stack := s.stack ++ [mv] }

/-- The component's state right after mount, from the `useState`
initializers (`error` starts as `"API_URL is not set."` when the
normalized URL is empty, else `null`). -/
def freshState (cfg : Config) : SessionState :=
  { stack := []
    gameStatus := "in_progress"
    error := if cfg.normalizedApiUrl = "" then some "API_URL is not set." else none
    isSubmittingMove := false
    selectedSquare := none
    availableTargets := []
    lastMove := none
    history := [] }

/-- The initialization `useEffect`: reset the chess instance and the
selection/history/status state, guard on `gameId` and the API URL, then
apply the initial engine move when playing black, else resync. -/
def initSession (E : Engine) (cfg : Config) (s : SessionState) : SessionState :=
  let s0 := { s with
    stack := []
    selectedSquare := none
    availableTargets := []
    lastMove := none
    history := []
    gameStatus := "in_progress" }
  if cfg.gameId = "" then { s0 with error := some "Game is not ready." }
  else if cfg.normalizedApiUrl = "" then
    { s0 with error := some "API_URL is not set." }
  else
    match cfg.initialEngineMove with
    | some tok =>
      if cfg.playerColor = Color.b ∧ tok ≠ "" then applyEngineMove E tok s0
      else syncBoardState s0
    | none => syncBoardState s0

/-- The synchronous start of `sendMoveToServer`, up to the `fetch` call:
guard on `gameId`/API URL, set the pending flag, clear the error, and emit
the move token that goes on the wire (`none` when nothing is sent). -/
def sendMoveStart (cfg : Config) (mv : MoveRec) (s : SessionState) :
    SessionState × Option String :=
  if cfg.gameId = "" ∨ cfg.normalizedApiUrl = "" then
    ({ s with error := some "Game is not ready. Start a new one." }, none)
  else
    ({ s with isSubmittingMove := true, error := none },
      some (createMoveToken mv))

/-- How an in-flight submission resolves: a parsed success response, or a
failure (a non-ok response — thrown as "The move was rejected by the
server." — or a transport error with its own message). -/
inductive Outcome where
  | ok (payload : GameResponse)
  | fail (msg : String)

/-- The resolution of `sendMoveToServer` after the `fetch` settles: on
success record the status and apply the authority's move when present; on
failure `chess.undo()` the optimistic move, resync and set the error; in
both cases clear the pending flag (the `finally` block). -/
def sendMoveSettle (E : Engine) (out : Outcome) (s : SessionState) :
    SessionState :=
  let s1 :=
    match out with
    | Outcome.ok payload =>
      let s2 := { s with gameStatus := payload.status.getD "in_progress" }
      match payload.move with
      | some tok => if tok ≠ "" then applyEngineMove E tok s2 else s2
      | none => s2
    | Outcome.fail msg =>
      syncBoardState { s with stack := s.stack.dropLast, error := some msg }
  { s1 with isSubmittingMove := false }

/-- The fall-through half of `handleSquareClick`, reached when the clicked
square does not hold the player's own piece: try the move from the selected
origin with promotion defaulted to queen; on success clear the selection,
resync, and start the submission. -/
def clickDestination (E : Engine) (cfg : Config) (s : SessionState)
    (sq : String) : SessionState × Option String :=
  match s.selectedSquare with
  | none => (s, none)
  | some sel =>
    match E.tryMove s.stack { mfrom := sel, mto := sq, promotion := some 'q' } with
    | none => (s, none)
    | some mv =>
      sendMoveStart cfg mv
        (syncBoardState { s with
          stack := s.stack ++ [mv]
          selectedSquare := none
          availableTargets := [] })

/-- The `handleSquareClick` handler: guard on game readiness, status, turn and the
pending flag; toggle/replace the selection on an own-piece click; otherwise
fall through to the destination logic.  The second component is the move
token submitted to the authority, `none` when no submission starts. -/
def handleSquareClick (E : Engine) (cfg : Config) (s : SessionState)
    (sq : String) : SessionState × Option String :=
  if cfg.gameId = "" ∨ s.gameStatus ≠ "in_progress" ∨
      turnOf s.stack ≠ cfg.playerColor ∨ s.isSubmittingMove = true then
    (s, none)
  else
    match E.getPiece s.stack sq with
    | some piece =>
      if piece.color = cfg.playerColor then
        if s.selectedSquare = some sq then
          ({ s with selectedSquare := none, availableTargets := [] }, none)
        else
          ({ s with
              selectedSquare := some sq
              availableTargets := (E.legalMoves s.stack sq).map (fun m => m.mto) },
            none)
      else clickDestination E cfg s sq
    | none => clickDestination E cfg s sq

/-- One row of the `movePairs` projection. -/
structure MovePair where
  moveNumber : Nat
  white : String
  black : Option String
  deriving DecidableEq, Repr

/-- The `movePairs` memo: the loop `for (i = 0; i < len; i += 2)` pushes
`{moveNumber: i/2+1, white: history[i], black: history[i+1]}`, where the
black entry is `undefined` past the end. -/
def movePairs (history : List String) : List MovePair :=
  (List.range ((history.length + 1) / 2)).map fun k =>
    { moveNumber := k + 1
      white := history.getD (2 * k) ""
      black := history.get? (2 * k + 1) }

/-! ## Board rendering (`ChessBoard`) -/

/-- The shape of `chess.board()`: rows from rank 8 down to rank 1, columns from file a
to file h; each entry an optional piece. -/
abbrev BoardState := List (List (Option Piece))

/-- The `FILES` constant. -/
def boardFiles : List Char := ['a', 'b', 'c', 'd', 'e', 'f', 'g', 'h']

/-- The `baseIndices` constant. -/
def baseIndices : List Nat := [0, 1, 2, 3, 4, 5, 6, 7]

/-- The `rowOrder` traversal: reversed for the black perspective. -/
def rowOrder (perspective : Color) : List Nat :=
  if perspective = Color.w then baseIndices else baseIndices.reverse

/-- The `columnOrder` traversal: reversed for the black perspective. -/
def columnOrder (perspective : Color) : List Nat :=
  if perspective = Color.w then baseIndices else baseIndices.reverse

/-- The square name the component assigns to a rendered cell:
`rank = 8 - displayRowIndex`, `file = FILES[displayColumnIndex]`. -/
def squareNameAt (displayRowIndex displayColumnIndex : Nat) : String :=
  String.mk [boardFiles.getD displayColumnIndex 'a'] ++
    toString (8 - displayRowIndex)

/-- The rendered cells in traversal order, each carrying its assigned
square name and the occupant it displays
(`boardState[rowIdx][colIdx]`). -/
def renderedSquares (boardState : BoardState) (perspective : Color) :
    List (String × Option Piece) :=
  (rowOrder perspective).enum.flatMap fun r =>
    (columnOrder perspective).enum.map fun c =>
      (squareNameAt r.1 c.1, (boardState.getD r.2 []).getD c.2 none)

/-! ## Concrete fixtures used by witnesses and counterexamples -/

/-- An all-empty board row. -/
def emptyRow : List (Option Piece) := List.replicate 8 none

/-- A board holding a single black rook on a8 (`boardState[0][0]`),
empty elsewhere. -/
def oneRookBoard : BoardState :=
  (some { ptype := 'r', color := Color.b } :: List.replicate 7 none) ::
    List.replicate 7 emptyRow

/-- A stub rules engine that accepts nothing; enough for guard-only facts. -/
def stubEngine : Engine where
  tryMove := fun _ _ => none
  getPiece := fun _ _ => none
  legalMoves := fun _ _ => []

/-- A ready configuration for a white-player session. -/
def cfgWhite : Config :=
  { normalizedApiUrl := "http://api.test"
    gameId := "g1"
    playerColor := Color.w
    initialEngineMove := none }

/-! ## Theorems -/

/-- C1: the claim fails on the code and the spec is the clear intent.  On the
board holding a single black rook on a8, the white perspective renders the
pair (a8, rook) while the black perspective renders (a8, empty) and instead
shows the rook under the name h1: the rendered (square name, occupant) pair
sets differ between perspectives, because `ChessBoard` computes each cell's
square name from the display indices while fetching the occupant from the
perspective-reversed board indices. -/
theorem c1_perspective_pairs_diverge :
    (("a8", (some { ptype := 'r', color := Color.b } : Option Piece)) ∈
        renderedSquares oneRookBoard Color.w) ∧
    (("a8", (some { ptype := 'r', color := Color.b } : Option Piece)) ∉
        renderedSquares oneRookBoard Color.b) ∧
    (("a8", (none : Option Piece)) ∈ renderedSquares oneRookBoard Color.b) ∧
    (("h1", (some { ptype := 'r', color := Color.b } : Option Piece)) ∈
        renderedSquares oneRookBoard Color.b) := by
  decide

/-- C8: `movePairs` groups any flat history order-preservingly into
1-indexed pairs: the pair at (0-based) index k carries move number k+1,
white entry `history[2k]` and black entry `history[2k+1]` (absent past the
end); and on `["e4","e5","Nf3"]` it yields exactly the two pairs the claim
lists. -/
theorem c8_history_pairing :
    (∀ (h : List String) (k : Nat),
        (movePairs h).get? k =
          if k < (h.length + 1) / 2 then
            some { moveNumber := k + 1, white := h.getD (2 * k) ""
                   black := h.get? (2 * k + 1) }
          else none) ∧
    movePairs ["e4", "e5", "Nf3"] =
      [{ moveNumber := 1, white := "e4", black := some "e5" },
       { moveNumber := 2, white := "Nf3", black := none }] := by
  constructor
  · intro h k
    by_cases hk : k < (h.length + 1) / 2
    · simp [movePairs, List.get?_map, List.get?_range, hk]
    · have hlen : (movePairs h).length ≤ k := by
        simpa [movePairs] using Nat.le_of_not_lt hk
      rw [List.get?_eq_none.mpr hlen, if_neg hk]
  · decide

/-- C3: while a submission is in flight (`isSubmittingMove` set), a click on
any square is a no-op: the session state is returned unchanged and no new
submission token is emitted. -/
theorem c3_click_noop_while_submitting (E : Engine) (cfg : Config)
    (s : SessionState) (sq : String) (h : s.isSubmittingMove = true) :
    handleSquareClick E cfg s sq = (s, none) := by
  simp [handleSquareClick, h]

/-- Witness for C3 at a concrete in-flight state. -/
theorem c3_click_noop_while_submitting_witness :
    ({ freshState cfgWhite with isSubmittingMove := true }.isSubmittingMove
        = true) ∧
    handleSquareClick stubEngine cfgWhite
        { freshState cfgWhite with isSubmittingMove := true } "e2" =
      ({ freshState cfgWhite with isSubmittingMove := true }, none) :=
  ⟨rfl, c3_click_noop_while_submitting stubEngine cfgWhite
    { freshState cfgWhite with isSubmittingMove := true } "e2" rfl⟩


/-- Valid rank characters of a square string. -/
def rankChars : List Char := ['1', '2', '3', '4', '5', '6', '7', '8']

/-- Valid promotion letters of the wire format. -/
def promoChars : List Char := ['q', 'r', 'b', 'n']

/-- A well-formed square string: two characters, a file a-h and a rank 1-8. -/
def WellFormedSquareStr (s : String) : Prop :=
  s.toList.length = 2 ∧ s.toList.getD 0 ' ' ∈ boardFiles ∧
    s.toList.getD 1 ' ' ∈ rankChars

/-- A well-formed move record: valid origin and destination squares and an
optional promotion letter. -/
def WellFormedMove (mv : MoveRec) : Prop :=
  WellFormedSquareStr mv.mfrom ∧ WellFormedSquareStr mv.mto ∧
    (mv.promotion = none ∨ mv.promotion ∈ promoChars.map some)

/-- Token round trip at the level of explicit two-character squares. -/
theorem decodeToken_append (f1 r1 f2 r2 : Char) (p : Option Char) :
    decodeToken (String.mk [f1, r1] ++ String.mk [f2, r2] ++
        (match p with | some c => String.mk [c] | none => "")) =
      { mfrom := String.mk [f1, r1], mto := String.mk [f2, r2],
        promotion := p } := by
  cases p <;> rfl

/-- C4: for every well-formed move, decoding the token produced by
`createMoveToken` recovers the origin (characters 0-2), the destination
(characters 2-4) and the promotion designator (character 4, present exactly
when the token has length 5). -/
theorem c4_token_round_trip (mv : MoveRec) (h : WellFormedMove mv) :
    decodeToken (createMoveToken mv) =
      { mfrom := mv.mfrom, mto := mv.mto, promotion := mv.promotion } := by
  obtain ⟨⟨hf2, -, -⟩, ⟨ht2, -, -⟩, -⟩ := h
  obtain ⟨f1, r1, hfrom⟩ := List.length_eq_two.mp hf2
  obtain ⟨f2, r2, hto⟩ := List.length_eq_two.mp ht2
  have hfrom2 : mv.mfrom = String.mk [f1, r1] := String.ext hfrom
  have hto2 : mv.mto = String.mk [f2, r2] := String.ext hto
  simp only [createMoveToken, hfrom2, hto2]
  exact decodeToken_append f1 r1 f2 r2 mv.promotion

/-- The promotion move e7e8q as a verbose record. -/
def promoMove : MoveRec :=
  { mfrom := "e7", mto := "e8", promotion := some 'q', san := "e8=Q" }

/-- Witness for C4 at the concrete promotion move e7e8q. -/
theorem c4_token_round_trip_witness :
    WellFormedMove promoMove ∧
    decodeToken (createMoveToken promoMove) =
      { mfrom := "e7", mto := "e8", promotion := some 'q' } :=
  ⟨by unfold WellFormedMove WellFormedSquareStr; decide,
    c4_token_round_trip promoMove (by unfold WellFormedMove WellFormedSquareStr; decide)⟩


/-- C5: starting a session as black with the authority opening "e2e4"
applies that move through the rules engine during initialization, so the
session settles with history exactly ["e4"], black (the player) to move, an
in-progress status, no pending submission, and no error. -/
theorem c5_init_black_opening (E : Engine) (cfg : Config) (mv : MoveRec)
    (hgid : cfg.gameId ≠ "") (hapi : cfg.normalizedApiUrl ≠ "")
    (hcol : cfg.playerColor = Color.b)
    (hinit : cfg.initialEngineMove = some "e2e4")
    (hmv : E.tryMove [] (decodeToken "e2e4") = some mv)
    (hsan : mv.san = "e4") :
    (initSession E cfg (freshState cfg)).history = ["e4"] ∧
    turnOf (initSession E cfg (freshState cfg)).stack = Color.b ∧
    (initSession E cfg (freshState cfg)).gameStatus = "in_progress" ∧
    (initSession E cfg (freshState cfg)).isSubmittingMove = false ∧
    (initSession E cfg (freshState cfg)).error = none := by
  simp [initSession, freshState, hgid, hapi, hcol, hinit, applyEngineMove,
    hmv, syncBoardState, hsan, turnOf]

/-- An engine accepting exactly the pawn push e2e4 (with the queen default
the session always passes) from the initial position. -/
def e2e4Move : MoveRec :=
  { mfrom := "e2", mto := "e4", promotion := none, san := "e4" }

/-- A rules engine for witnesses: from the empty stack it accepts e2e4
whatever the promotion designator, shows a white pawn on e2, and offers
e2e4 as the only candidate from e2. -/
def witnessEngine : Engine where
  tryMove := fun stack inp =>
    if stack = [] ∧ inp.mfrom = "e2" ∧ inp.mto = "e4" then some e2e4Move
    else none
  getPiece := fun _ sq =>
    if sq = "e2" then some { ptype := 'p', color := Color.w } else none
  legalMoves := fun stack sq =>
    if stack = [] ∧ sq = "e2" then [e2e4Move] else []

/-- A ready configuration for a black-player session with the opening
reply supplied. -/
def cfgBlack : Config :=
  { normalizedApiUrl := "http://api.test"
    gameId := "g2"
    playerColor := Color.b
    initialEngineMove := some "e2e4" }

/-- Witness for C5: concrete session as black with opening "e2e4". -/
theorem c5_init_black_opening_witness :
    witnessEngine.tryMove [] (decodeToken "e2e4") = some e2e4Move ∧
    (initSession witnessEngine cfgBlack (freshState cfgBlack)).history
        = ["e4"] ∧
    turnOf (initSession witnessEngine cfgBlack (freshState cfgBlack)).stack
        = Color.b :=
  ⟨by decide, ((c5_init_black_opening witnessEngine cfgBlack e2e4Move
      (by decide) (by decide) rfl rfl (by decide) rfl).1),
    ((c5_init_black_opening witnessEngine cfgBlack e2e4Move
      (by decide) (by decide) rfl rfl (by decide) rfl).2.1)⟩

/-- C10: when a submission succeeds with a terminal status and an authority
move token, the status is recorded and the authority's move is still
applied: the final stack and history include the closing move while the
session is finished and the pending flag is cleared. -/
theorem c10_terminal_response_still_applies_move (E : Engine)
    (s : SessionState) (payload : GameResponse) (tok : String) (mv : MoveRec)
    (st : String) (hst : payload.status = some st)
    (hterm : st ≠ "in_progress") (hmove : payload.move = some tok)
    (htok : tok ≠ "") (hmv : E.tryMove s.stack (decodeToken tok) = some mv) :
    (sendMoveSettle E (Outcome.ok payload) s).stack = s.stack ++ [mv] ∧
    (sendMoveSettle E (Outcome.ok payload) s).history
        = (s.stack ++ [mv]).map (fun m => m.san) ∧
    (sendMoveSettle E (Outcome.ok payload) s).gameStatus = st ∧
    (sendMoveSettle E (Outcome.ok payload) s).isSubmittingMove = false := by
  simp [sendMoveSettle, hst, hmove, htok, applyEngineMove, hmv,
    syncBoardState]

/-- Witness for C10: a checkmate response that still carries "e2e4". -/
theorem c10_terminal_response_still_applies_move_witness :
    ({ move := some "e2e4", status := some "checkmate" } : GameResponse).move
        = some "e2e4" ∧
    (sendMoveSettle witnessEngine
        (Outcome.ok { move := some "e2e4", status := some "checkmate" })
        (freshState cfgWhite)).stack = [e2e4Move] ∧
    (sendMoveSettle witnessEngine
        (Outcome.ok { move := some "e2e4", status := some "checkmate" })
        (freshState cfgWhite)).gameStatus = "checkmate" :=
  ⟨rfl,
    (c10_terminal_response_still_applies_move witnessEngine
      (freshState cfgWhite)
      { move := some "e2e4", status := some "checkmate" } "e2e4" e2e4Move
      "checkmate" rfl (by decide) rfl (by decide) (by decide)).1,
    (c10_terminal_response_still_applies_move witnessEngine
      (freshState cfgWhite)
      { move := some "e2e4", status := some "checkmate" } "e2e4" e2e4Move
      "checkmate" rfl (by decide) rfl (by decide) (by decide)).2.2.1⟩


/-- Helper: with an origin selected and the engine accepting the queen-default
move, the destination click applies the move optimistically, resyncs, and
starts the submission with the encoded token. -/
theorem clickDestination_accepts (E : Engine) (cfg : Config)
    (s : SessionState) (sq sel : String) (mv : MoveRec)
    (hsel : s.selectedSquare = some sel)
    (hmv : E.tryMove s.stack { mfrom := sel, mto := sq, promotion := some 'q' }
        = some mv)
    (hgid : cfg.gameId ≠ "") (hapi : cfg.normalizedApiUrl ≠ "") :
    clickDestination E cfg s sq =
      ({ s with stack := s.stack ++ [mv]
                selectedSquare := none
                availableTargets := []
                lastMove := some (mv.mfrom, mv.mto)
                history := (s.stack ++ [mv]).map (fun m => m.san)
                isSubmittingMove := true
                error := none },
        some (createMoveToken mv)) := by
  simp [clickDestination, hsel, hmv, sendMoveStart, hgid, hapi,
    syncBoardState, List.getLast?_concat]

/-- Helper: with an origin selected but the engine rejecting the
queen-default move, the destination click is a no-op. -/
theorem clickDestination_rejects (E : Engine) (cfg : Config)
    (s : SessionState) (sq sel : String)
    (hsel : s.selectedSquare = some sel)
    (hmv : E.tryMove s.stack { mfrom := sel, mto := sq, promotion := some 'q' }
        = none) :
    clickDestination E cfg s sq = (s, none) := by
  simp [clickDestination, hsel, hmv]

/-- C7: selection toggling, valid only on the player's turn of an
in-progress game with no submission pending: re-clicking the selected
own-piece square clears the selection and the candidate set; clicking an
own-piece square that is not the current selection replaces the selection
and recomputes the candidate destinations from the rules engine; clicking a
square that does not hold an own piece while nothing is selected is a
no-op. -/
theorem c7_selection_toggle (E : Engine) (cfg : Config) (s : SessionState)
    (sq : String) (hgid : cfg.gameId ≠ "")
    (hst : s.gameStatus = "in_progress")
    (hturn : turnOf s.stack = cfg.playerColor)
    (hsub : s.isSubmittingMove = false) :
    (∀ p, E.getPiece s.stack sq = some p → p.color = cfg.playerColor →
      s.selectedSquare = some sq →
      handleSquareClick E cfg s sq =
        ({ s with selectedSquare := none, availableTargets := [] }, none)) ∧
    (∀ p, E.getPiece s.stack sq = some p → p.color = cfg.playerColor →
      s.selectedSquare ≠ some sq →
      handleSquareClick E cfg s sq =
        ({ s with selectedSquare := some sq
                  availableTargets :=
                    (E.legalMoves s.stack sq).map (fun m => m.mto) },
          none)) ∧
    ((∀ p, E.getPiece s.stack sq = some p → p.color ≠ cfg.playerColor) →
      s.selectedSquare = none →
      handleSquareClick E cfg s sq = (s, none)) := by
  refine ⟨?_, ?_, ?_⟩
  · intro p hp hcol hsel
    simp [handleSquareClick, hgid, hst, hturn, hsub, hp, hcol, hsel]
  · intro p hp hcol hsel
    simp [handleSquareClick, hgid, hst, hturn, hsub, hp, hcol, hsel]
  · intro hnotown hsel
    cases hp : E.getPiece s.stack sq with
    | none =>
      simp [handleSquareClick, hgid, hst, hturn, hsub, hp, clickDestination,
        hsel]
    | some p =>
      simp [handleSquareClick, hgid, hst, hturn, hsub, hp, hnotown p hp,
        clickDestination, hsel]

/-- A session state of a white player with e2 selected but an empty stored
candidate set, to exercise selection and apply-time behaviour. -/
def selectedNoTargets : SessionState :=
  { freshState cfgWhite with selectedSquare := some "e2" }

/-- Witness for C7, all three branches at concrete states: re-clicking the
selected e2 clears it; first-clicking e2 selects it with the engine's
candidates; clicking the empty a5 with no selection is a no-op. -/
theorem c7_selection_toggle_witness :
    handleSquareClick witnessEngine cfgWhite selectedNoTargets "e2" =
      ({ selectedNoTargets with selectedSquare := none
                                availableTargets := [] }, none) ∧
    handleSquareClick witnessEngine cfgWhite (freshState cfgWhite) "e2" =
      ({ freshState cfgWhite with
          selectedSquare := some "e2"
          availableTargets :=
            (witnessEngine.legalMoves (freshState cfgWhite).stack "e2").map
              (fun m => m.mto) }, none) ∧
    handleSquareClick witnessEngine cfgWhite (freshState cfgWhite) "a5" =
      (freshState cfgWhite, none) :=
  ⟨(c7_selection_toggle witnessEngine cfgWhite selectedNoTargets "e2"
      (by decide) rfl rfl rfl).1 { ptype := 'p', color := Color.w }
      (by decide) rfl rfl,
    (c7_selection_toggle witnessEngine cfgWhite (freshState cfgWhite) "e2"
      (by decide) rfl rfl rfl).2.1 { ptype := 'p', color := Color.w }
      (by decide) rfl (by decide),
    (c7_selection_toggle witnessEngine cfgWhite (freshState cfgWhite) "a5"
      (by decide) rfl rfl rfl).2.2 (by decide) rfl⟩


/-- Helper: under the click guard, a click on a square that does not hold an
own piece routes to the destination logic. -/
theorem handleSquareClick_destination (E : Engine) (cfg : Config)
    (s : SessionState) (sq : String) (hgid : cfg.gameId ≠ "")
    (hst : s.gameStatus = "in_progress")
    (hturn : turnOf s.stack = cfg.playerColor)
    (hsub : s.isSubmittingMove = false)
    (hnotown : ∀ p, E.getPiece s.stack sq = some p →
        p.color ≠ cfg.playerColor) :
    handleSquareClick E cfg s sq = clickDestination E cfg s sq := by
  cases hp : E.getPiece s.stack sq with
  | none => simp [handleSquareClick, hgid, hst, hturn, hsub, hp]
  | some p => simp [handleSquareClick, hgid, hst, hturn, hsub, hp,
      hnotown p hp]

/-- C9 (implicit): at apply time only the rules engine is consulted.  Under
the click guard, with an origin selected and the clicked square not holding
an own piece, the optimistic apply and submission happen exactly when
`chess.move` accepts the move (promotion defaulted to queen) — the stored
candidate-destination set `availableTargets` is arbitrary here, so a
rules-engine-legal destination outside it is still applied and
submitted. -/
theorem c9_apply_iff_engine_accepts (E : Engine) (cfg : Config)
    (s : SessionState) (sq sel : String) (hgid : cfg.gameId ≠ "")
    (hst : s.gameStatus = "in_progress")
    (hturn : turnOf s.stack = cfg.playerColor)
    (hsub : s.isSubmittingMove = false)
    (hnotown : ∀ p, E.getPiece s.stack sq = some p →
        p.color ≠ cfg.playerColor)
    (hsel : s.selectedSquare = some sel)
    (hapi : cfg.normalizedApiUrl ≠ "") :
    (∀ mv, E.tryMove s.stack { mfrom := sel, mto := sq, promotion := some 'q' }
        = some mv →
      handleSquareClick E cfg s sq =
        ({ s with stack := s.stack ++ [mv]
                  selectedSquare := none
                  availableTargets := []
                  lastMove := some (mv.mfrom, mv.mto)
                  history := (s.stack ++ [mv]).map (fun m => m.san)
                  isSubmittingMove := true
                  error := none },
          some (createMoveToken mv))) ∧
    (E.tryMove s.stack { mfrom := sel, mto := sq, promotion := some 'q' }
        = none →
      handleSquareClick E cfg s sq = (s, none)) := by
  constructor
  · intro mv hmv
    rw [handleSquareClick_destination E cfg s sq hgid hst hturn hsub hnotown]
    exact clickDestination_accepts E cfg s sq sel mv hsel hmv hgid hapi
  · intro hmv
    rw [handleSquareClick_destination E cfg s sq hgid hst hturn hsub hnotown]
    exact clickDestination_rejects E cfg s sq sel hsel hmv

/-- Witness for C9: e4 is rules-engine-legal from the selected e2 but absent
from the stored (empty) candidate set, and the click still applies and
submits it. -/
theorem c9_apply_iff_engine_accepts_witness :
    selectedNoTargets.availableTargets = [] ∧
    witnessEngine.tryMove selectedNoTargets.stack
        { mfrom := "e2", mto := "e4", promotion := some 'q' }
        = some e2e4Move ∧
    handleSquareClick witnessEngine cfgWhite selectedNoTargets "e4" =
      ({ selectedNoTargets with
          stack := [e2e4Move]
          selectedSquare := none
          availableTargets := []
          lastMove := some (e2e4Move.mfrom, e2e4Move.mto)
          history := [e2e4Move].map (fun m => m.san)
          isSubmittingMove := true
          error := none },
        some (createMoveToken e2e4Move)) :=
  ⟨rfl, by decide,
    (c9_apply_iff_engine_accepts witnessEngine cfgWhite selectedNoTargets
      "e4" "e2" (by decide) rfl rfl rfl (by decide) rfl (by decide)).1
      e2e4Move (by decide)⟩

/-- C2: end-to-end rollback.  From a synced player-to-move state, an
optimistically applied and submitted move whose submission settles with a
failure (authority rejection or transport error) leaves the session with
the Position (move stack), side-to-move and history exactly as before the
optimistic apply, the pending flag cleared, and the error message set. -/
theorem c2_rollback_on_failure (E : Engine) (cfg : Config)
    (s : SessionState) (sq sel : String) (mv : MoveRec) (msg : String)
    (hgid : cfg.gameId ≠ "") (hst : s.gameStatus = "in_progress")
    (hturn : turnOf s.stack = cfg.playerColor)
    (hsub : s.isSubmittingMove = false)
    (hnotown : ∀ p, E.getPiece s.stack sq = some p →
        p.color ≠ cfg.playerColor)
    (hsel : s.selectedSquare = some sel)
    (hapi : cfg.normalizedApiUrl ≠ "")
    (hmv : E.tryMove s.stack { mfrom := sel, mto := sq, promotion := some 'q' }
        = some mv)
    (hsync : s.history = s.stack.map (fun m => m.san)) :
    (sendMoveSettle E (Outcome.fail msg)
        (handleSquareClick E cfg s sq).1).stack = s.stack ∧
    turnOf (sendMoveSettle E (Outcome.fail msg)
        (handleSquareClick E cfg s sq).1).stack = turnOf s.stack ∧
    (sendMoveSettle E (Outcome.fail msg)
        (handleSquareClick E cfg s sq).1).history = s.history ∧
    (sendMoveSettle E (Outcome.fail msg)
        (handleSquareClick E cfg s sq).1).isSubmittingMove = false ∧
    (sendMoveSettle E (Outcome.fail msg)
        (handleSquareClick E cfg s sq).1).error = some msg := by
  rw [handleSquareClick_destination E cfg s sq hgid hst hturn hsub hnotown,
    clickDestination_accepts E cfg s sq sel mv hsel hmv hgid hapi]
  simp [sendMoveSettle, syncBoardState, List.dropLast_concat, hsync]

/-- Witness for C2: the concrete optimistic e2e4 submission fails and the
session returns to the empty-history initial state with the error set. -/
theorem c2_rollback_on_failure_witness :
    witnessEngine.tryMove selectedNoTargets.stack
        { mfrom := "e2", mto := "e4", promotion := some 'q' }
        = some e2e4Move ∧
    (sendMoveSettle witnessEngine (Outcome.fail "The move was rejected by the server.")
        (handleSquareClick witnessEngine cfgWhite selectedNoTargets "e4").1).stack
        = selectedNoTargets.stack ∧
    (sendMoveSettle witnessEngine (Outcome.fail "The move was rejected by the server.")
        (handleSquareClick witnessEngine cfgWhite selectedNoTargets "e4").1).history
        = selectedNoTargets.history ∧
    (sendMoveSettle witnessEngine (Outcome.fail "The move was rejected by the server.")
        (handleSquareClick witnessEngine cfgWhite selectedNoTargets "e4").1).error
        = some "The move was rejected by the server." :=
  ⟨by decide,
    (c2_rollback_on_failure witnessEngine cfgWhite selectedNoTargets "e4"
      "e2" e2e4Move "The move was rejected by the server." (by decide) rfl
      rfl rfl (by decide) rfl (by decide) (by decide) rfl).1,
    (c2_rollback_on_failure witnessEngine cfgWhite selectedNoTargets "e4"
      "e2" e2e4Move "The move was rejected by the server." (by decide) rfl
      rfl rfl (by decide) rfl (by decide) (by decide) rfl).2.2.1,
    (c2_rollback_on_failure witnessEngine cfgWhite selectedNoTargets "e4"
      "e2" e2e4Move "The move was rejected by the server." (by decide) rfl
      rfl rfl (by decide) rfl (by decide) (by decide) rfl).2.2.2.2⟩


/-- The resolution of a submission always clears the pending flag. -/
theorem sendMoveSettle_isSubmittingMove (E : Engine) (out : Outcome)
    (s : SessionState) : (sendMoveSettle E out s).isSubmittingMove = false :=
  rfl

/-- Initialization never sets the pending flag. -/
theorem initSession_isSubmittingMove (E : Engine) (cfg : Config)
    (s : SessionState) :
    (initSession E cfg s).isSubmittingMove = s.isSubmittingMove := by
  simp only [initSession, applyEngineMove, syncBoardState]
  repeat' split
  all_goals rfl

/-- Appending one move flips the side to move. -/
theorem turnOf_concat_ne (l : List MoveRec) (m : MoveRec) :
    turnOf (l ++ [m]) ≠ turnOf l := by
  by_cases hp : l.length % 2 = 0
  · have hq : (l.length + 1) % 2 ≠ 0 := by omega
    simp [turnOf, List.length_append, hp, hq]
  · have hq : (l.length + 1) % 2 = 0 := by omega
    simp [turnOf, List.length_append, hp, hq]

/-- The destination logic either leaves the state unchanged or appends
exactly one move to the stack. -/
theorem clickDestination_stack_cases (E : Engine) (cfg : Config)
    (s : SessionState) (sq : String) :
    (clickDestination E cfg s sq).1 = s ∨
    ∃ mv, (clickDestination E cfg s sq).1.stack = s.stack ++ [mv] := by
  unfold clickDestination
  split
  · exact Or.inl rfl
  · split
    · exact Or.inl rfl
    · next mv _ =>
      refine Or.inr ⟨mv, ?_⟩
      unfold sendMoveStart syncBoardState
      split <;> rfl

/-- A click either leaves the state unchanged, changes only the selection
(stack and pending flag untouched), or — necessarily on the player's own
turn — appends exactly one move. -/
theorem handleSquareClick_stack_cases (E : Engine) (cfg : Config)
    (s : SessionState) (sq : String) :
    (handleSquareClick E cfg s sq).1 = s ∨
    ((handleSquareClick E cfg s sq).1.stack = s.stack ∧
      (handleSquareClick E cfg s sq).1.isSubmittingMove
        = s.isSubmittingMove) ∨
    (turnOf s.stack = cfg.playerColor ∧
      ∃ mv, (handleSquareClick E cfg s sq).1.stack = s.stack ++ [mv]) := by
  unfold handleSquareClick
  split
  · exact Or.inl rfl
  · next hg =>
    have hturn : turnOf s.stack = cfg.playerColor := by
      rcases not_or.mp hg with ⟨-, hg2⟩
      rcases not_or.mp hg2 with ⟨-, hg3⟩
      exact not_not.mp (not_or.mp hg3).1
    have hdest : (clickDestination E cfg s sq).1 = s ∨
        ∃ mv, (clickDestination E cfg s sq).1.stack = s.stack ++ [mv] :=
      clickDestination_stack_cases E cfg s sq
    split
    · split
      · split
        · exact Or.inr (Or.inl ⟨rfl, rfl⟩)
        · exact Or.inr (Or.inl ⟨rfl, rfl⟩)
      · rcases hdest with hdl | hdr
        · exact Or.inl hdl
        · exact Or.inr (Or.inr ⟨hturn, hdr⟩)
    · rcases hdest with hdl | hdr
      · exact Or.inl hdl
      · exact Or.inr (Or.inr ⟨hturn, hdr⟩)

/-- The session states reachable by the component: the initialized mount
state, followed by any interleaving of square clicks and resolutions of an
in-flight submission. -/
inductive Reach (E : Engine) (cfg : Config) : SessionState → Prop where
  | init : Reach E cfg (initSession E cfg (freshState cfg))
  | click (s : SessionState) (sq : String) (hs : Reach E cfg s) :
      Reach E cfg (handleSquareClick E cfg s sq).1
  | settle (s : SessionState) (out : Outcome) (hs : Reach E cfg s)
      (hin : s.isSubmittingMove = true) :
      Reach E cfg (sendMoveSettle E out s)

/-- Invariant: in every reachable state with a submission in flight it is
not the player's turn (the optimistic move already flipped the side). -/
theorem reach_inflight_turn (E : Engine) (cfg : Config) (s : SessionState)
    (hs : Reach E cfg s) :
    s.isSubmittingMove = true → turnOf s.stack ≠ cfg.playerColor := by
  induction hs with
  | init =>
    intro h
    rw [initSession_isSubmittingMove] at h
    simp [freshState] at h
  | click s sq hs ih =>
    intro h
    rcases handleSquareClick_stack_cases E cfg s sq with
      heq | ⟨hstk, hsubm⟩ | ⟨hturn, mv, hstk⟩
    · rw [heq] at h ⊢
      exact ih h
    · rw [hstk]
      rw [hsubm] at h
      exact ih h
    · rw [hstk, ← hturn]
      exact turnOf_concat_ne s.stack mv
  | settle s out hs hin ih =>
    intro h
    rw [sendMoveSettle_isSubmittingMove] at h
    exact absurd h (by simp)


/-- C6: terminal states accept no further click transitions.  Part one: in
any state whose status is not "in_progress" (Finished), every click returns
the state unchanged with no submission.  Part two: when initialization
fails to apply the supplied authority move (Desynced at start), every click
on the resulting state is a no-op.  Part three: when a successful response
carries an authority move the rules engine cannot apply (Desynced
mid-game), every click on the resulting state of any reachable in-flight
session is a no-op. -/
theorem c6_terminal_states_reject_clicks (E : Engine) (cfg : Config) :
    (∀ (s : SessionState) (sq : String), s.gameStatus ≠ "in_progress" →
      handleSquareClick E cfg s sq = (s, none)) ∧
    (∀ (tok sq : String), cfg.gameId ≠ "" → cfg.normalizedApiUrl ≠ "" →
      cfg.playerColor = Color.b → cfg.initialEngineMove = some tok →
      tok ≠ "" → E.tryMove [] (decodeToken tok) = none →
      handleSquareClick E cfg (initSession E cfg (freshState cfg)) sq =
        (initSession E cfg (freshState cfg), none)) ∧
    (∀ (s : SessionState) (payload : GameResponse) (tok sq : String),
      Reach E cfg s → s.isSubmittingMove = true →
      payload.move = some tok → tok ≠ "" →
      E.tryMove s.stack (decodeToken tok) = none →
      handleSquareClick E cfg (sendMoveSettle E (Outcome.ok payload) s) sq =
        (sendMoveSettle E (Outcome.ok payload) s, none)) := by
  refine ⟨?_, ?_, ?_⟩
  · intro s sq hst
    simp [handleSquareClick, hst]
  · intro tok sq hgid hapi hcol hinit htok hfail
    have hstk : (initSession E cfg (freshState cfg)).stack = [] := by
      simp [initSession, hgid, hapi, hinit, hcol, htok, applyEngineMove,
        hfail]
    have hturn : turnOf (initSession E cfg (freshState cfg)).stack
        ≠ cfg.playerColor := by
      rw [hstk, hcol]
      simp [turnOf]
    simp [handleSquareClick, hturn]
  · intro s payload tok sq hreach hin hmove htok hfail
    have hstk : (sendMoveSettle E (Outcome.ok payload) s).stack = s.stack := by
      simp [sendMoveSettle, hmove, htok, applyEngineMove, hfail]
    have hturn : turnOf (sendMoveSettle E (Outcome.ok payload) s).stack
        ≠ cfg.playerColor := by
      rw [hstk]
      exact reach_inflight_turn E cfg s hreach hin
    simp [handleSquareClick, hturn]

/-- A finished session state. -/
def finishedState : SessionState :=
  { freshState cfgWhite with gameStatus := "checkmate" }

/-- The mounted-and-initialized white session under the witness engine. -/
def witInit : SessionState :=
  initSession witnessEngine cfgWhite (freshState cfgWhite)

/-- The witness session after selecting e2. -/
def witSelected : SessionState :=
  (handleSquareClick witnessEngine cfgWhite witInit "e2").1

/-- The witness session after clicking e4: the optimistic move is applied
and a submission is in flight. -/
def witInFlight : SessionState :=
  (handleSquareClick witnessEngine cfgWhite witSelected "e4").1

/-- The in-flight witness state is reachable. -/
theorem witInFlight_reach :
    Reach witnessEngine cfgWhite witInFlight :=
  Reach.click witSelected "e4" (Reach.click witInit "e2" Reach.init)

/-- Witness for C6: all three parts at concrete states — a checkmate state
rejects clicks; a black session whose opening authority move the stub
engine rejects ends desynced and rejects clicks; a reachable in-flight
white session whose counter-move the engine rejects ends desynced and
rejects clicks. -/
theorem c6_terminal_states_reject_clicks_witness :
    (finishedState.gameStatus ≠ "in_progress" ∧
      handleSquareClick stubEngine cfgWhite finishedState "e2" =
        (finishedState, none)) ∧
    (stubEngine.tryMove [] (decodeToken "e2e4") = none ∧
      handleSquareClick stubEngine cfgBlack
          (initSession stubEngine cfgBlack (freshState cfgBlack)) "e7" =
        (initSession stubEngine cfgBlack (freshState cfgBlack), none)) ∧
    (witInFlight.isSubmittingMove = true ∧
      witnessEngine.tryMove witInFlight.stack (decodeToken "a7a6") = none ∧
      handleSquareClick witnessEngine cfgWhite
          (sendMoveSettle witnessEngine
            (Outcome.ok { move := some "a7a6", status := some "in_progress" })
            witInFlight) "e2" =
        (sendMoveSettle witnessEngine
          (Outcome.ok { move := some "a7a6", status := some "in_progress" })
          witInFlight, none)) :=
  ⟨⟨by decide,
      (c6_terminal_states_reject_clicks stubEngine cfgWhite).1 finishedState
        "e2" (by decide)⟩,
    ⟨rfl,
      (c6_terminal_states_reject_clicks stubEngine cfgBlack).2.1 "e2e4" "e7"
        (by decide) (by decide) rfl rfl (by decide) rfl⟩,
    ⟨by decide, by decide,
      (c6_terminal_states_reject_clicks witnessEngine cfgWhite).2.2
        witInFlight { move := some "a7a6", status := some "in_progress" }
        "a7a6" "e2" witInFlight_reach (by decide) rfl (by decide)
        (by decide)⟩⟩

end VsChess
